import Mathlib

/-!
Shallow embedding of the MCP server supervisor of `src/app/core/mcp_manager.py`
(module-level cleanup registry, `MCPServerManager` with `parse_mcp_servers`,
`_build_env`, `start_server`, `stop_server`, `_check_health`,
`start_all_enabled`, `_health_check_loop`, `get_status`, and
`_cleanup_all_processes`).

External effects (the filesystem, process liveness, the HTTP probe, spawn
outcomes) are supplied by explicit oracle structures; the Python dictionaries
become association lists and the mutable manager becomes explicit state
passing.
-/

namespace MCPManager

/-- Association-list lookup, modelling Python `dict` access / `dict.get`. -/
def lookupA {α : Type} : List (String × α) → String → Option α
  | [], _ => none
  | (k, v) :: rest, key => if k = key then some v else lookupA rest key

/-- Association-list update of an existing key, modelling in-place mutation of
a value already present in a Python `dict` (`self.servers[name]` is only ever
mutated after a successful membership check). A missing key leaves the list
unchanged. -/
def updateA {α : Type} : List (String × α) → String → α → List (String × α)
  | [], _, _ => []
  | (k, v) :: rest, key, v' =>
    if k = key then (k, v') :: rest else (k, v) :: updateA rest key v'

/-- Python `env[k] = v` on a dict rendered as an association list: replace the
binding if the key is present, append it otherwise. -/
def setVar : List (String × String) → String → String → List (String × String)
  | [], k, v => [(k, v)]
  | (k', v') :: rest, k, v =>
    if k' = k then (k', v) :: rest else (k', v') :: setVar rest k v

/-- One server record of `MCPServerInfo` (dataclass in the source): static
definition fields plus the runtime fields `process` (the `subprocess.Popen`
handle, rendered as a pid), `status` and `error`. -/
structure MCPServerInfo where
  name : String
  description : String
  url : String
  port : Nat
  host : String
  enabled : Bool
  script_path : Option String
  config : List (String × String)
  process : Option Nat
  status : String
  error : Option String
deriving Repr, DecidableEq

/-- The `SERVER_SCRIPTS` name-to-script lookup table of `MCPServerManager`. -/
def SERVER_SCRIPTS : List (String × String) :=
  [("test_tool_server", "tools/test_mcp_server_simple.py"),
   ("elasticsearch", "mcp_bridges/elasticsearch/bridge_server.py")]

/-- Drop characters up to and including the first `://` separator. -/
def dropSchemeSep : List Char → Option (List Char)
  | ':' :: '/' :: '/' :: rest => some rest
  | _ :: rest => dropSchemeSep rest
  | [] => none

/-- Take characters of a list up to (excluding) the first occurrence of a
delimiter. -/
def takeUntilChar (c : Char) : List Char → List Char
  | [] => []
  | x :: xs => if x = c then [] else x :: takeUntilChar c xs

/-- Drop characters of a list up to and including the first occurrence of a
delimiter; `none` when the delimiter is absent. -/
def dropPastChar (c : Char) : List Char → Option (List Char)
  | [] => none
  | x :: xs => if x = c then some xs else dropPastChar c xs

/-- Parse a non-empty all-decimal character list as a natural number. -/
def digitsToNat? : List Char → Option Nat
  | [] => none
  | l => l.foldl (fun acc c =>
      match acc with
      | some n => if c.isDigit then some (n * 10 + (c.toNat - 48)) else none
      | none => none) (some 0)

/-- The netloc part of a URL (what stands between `://` and the next `/`),
as `urlparse` extracts it from the simple `scheme://host:port/...` shapes the
configuration uses. -/
def netloc (url : String) : List Char :=
  match dropSchemeSep url.data with
  | some rest => takeUntilChar '/' rest
  | none => []

/-- `urlparse(url).hostname` for the URL shapes the configuration uses. -/
def urlHostname (url : String) : Option String :=
  match takeUntilChar ':' (netloc url) with
  | [] => none
  | h => some (String.mk h)

/-- `urlparse(url).port` for the URL shapes the configuration uses. -/
def urlPort (url : String) : Option Nat :=
  match dropPastChar ':' (netloc url) with
  | some p => digitsToNat? p
  | none => none

/-- Host/port extraction in `parse_mcp_servers`: parse the URL when one is
configured, fall back to `localhost`/`8080` otherwise. -/
def parseHostPort (url : String) : String × Nat :=
  if url = "" then ("localhost", 8080)
  else ((urlHostname url).getD "localhost", (urlPort url).getD 8080)

/-- One entry of the `mcp_servers` configuration mapping (the YAML source):
`enabled`, `description` and the inner `config` dict. -/
structure ServerConfig where
  enabled : Bool
  description : String
  config : List (String × String)
deriving Repr, DecidableEq

/-- Script resolution in `parse_mcp_servers`: names found in `SERVER_SCRIPTS`
resolve to `project_root / script`; the path is kept only when it exists on
disk (`fs` is the set of existing paths), otherwise `script_path` is `None`. -/
def resolveScript (fs : List String) (root : String) (name : String) : Option String :=
  match lookupA SERVER_SCRIPTS name with
  | some rel => if (root ++ "/" ++ rel) ∈ fs then some (root ++ "/" ++ rel) else none
  | none => none

/-- One iteration of the loop body of `parse_mcp_servers`: build an
`MCPServerInfo` from a configuration entry (status starts `"stopped"`,
no process handle, no error). -/
def parseOne (fs : List String) (root : String) (name : String) (sc : ServerConfig) :
    MCPServerInfo :=
  { name := name
    description := sc.description
    url := (lookupA sc.config "url").getD ""
    port := (parseHostPort ((lookupA sc.config "url").getD "")).2
    host := (parseHostPort ((lookupA sc.config "url").getD "")).1
    enabled := sc.enabled
    script_path := resolveScript fs root name
    config := sc.config
    process := none
    status := "stopped"
    error := none }

/-- `parse_mcp_servers`: map the configuration entries to server records. -/
def parse_mcp_servers (fs : List String) (root : String)
    (cfg : List (String × ServerConfig)) : List (String × MCPServerInfo) :=
  cfg.map (fun p => (p.1, parseOne fs root p.1 p.2))

/-- `config.get(key)` followed by Python truthiness: an absent key or an empty
string both fail the `if config.get(key):` guard in `_build_env`. -/
def getTruthy (cfg : List (String × String)) (k : String) : Option String :=
  match lookupA cfg k with
  | some v => if v = "" then none else some v
  | none => none

/-- Conditionally set an environment variable, as each
`if config.get(key): env[VAR] = config[key]` line of `_build_env` does. -/
def condSet (env : List (String × String)) (k : String) : Option String → List (String × String)
  | some v => setVar env k v
  | none => env

/-- `_build_env`: copy the parent environment, set `PYTHONPATH` to the project
root, and only for the server named `elasticsearch` forward the four specific
config keys `es_url`, `username`, `password`, `api_key` (when present and
truthy) plus the fixed `NODE_TLS_REJECT_UNAUTHORIZED`, `BRIDGE_PORT`,
`BRIDGE_HOST` variables. -/
def _build_env (root : String) (parentEnv : List (String × String))
    (server : MCPServerInfo) : List (String × String) :=
  let env := setVar parentEnv "PYTHONPATH" root
  if server.name = "elasticsearch" then
    let env := condSet env "ES_URL" (getTruthy server.config "es_url")
    let env := condSet env "ES_USERNAME" (getTruthy server.config "username")
    let env := condSet env "ES_PASSWORD" (getTruthy server.config "password")
    let env := condSet env "ES_API_KEY" (getTruthy server.config "api_key")
    let env := setVar env "NODE_TLS_REJECT_UNAUTHORIZED" "0"
    let env := setVar env "BRIDGE_PORT" (toString server.port)
    setVar env "BRIDGE_HOST" server.host
  else env

/-- The environment keys `_build_env` may add beyond the parent environment
and `PYTHONPATH` (all of them only for the `elasticsearch` server type). -/
def es_env_keys : List String :=
  ["ES_URL", "ES_USERNAME", "ES_PASSWORD", "ES_API_KEY",
   "NODE_TLS_REJECT_UNAUTHORIZED", "BRIDGE_PORT", "BRIDGE_HOST"]

/-- The probe target of `_check_health`: `http://{host}:{port}/sse`. -/
def health_url (host : String) (port : Nat) : String :=
  "http://" ++ host ++ ":" ++ toString port ++ "/sse"

/-- The `httpx.AsyncClient(timeout=2.0)` probe timeout, in seconds. -/
def health_timeout_seconds : Nat := 2

/-- `_check_health`: the probe outcome is either a transport-level failure
(any raised exception, rendered `Except.error`) or an HTTP status code.
Healthy exactly when the code is 200 or 500; every exception is caught and
yields `false`. -/
def _check_health (resp : Except String Nat) : Bool :=
  match resp with
  | Except.ok code => code == 200 || code == 500
  | Except.error _ => false

/-- Mutable manager state: the per-name server table (`self.servers`) and the
module-level cleanup registry `_all_started_processes` (as a pid list). -/
structure ManagerState where
  servers : List (String × MCPServerInfo)
  registry : List Nat
deriving Repr, DecidableEq

/-- `max_wait = 10` in `start_server`: the health-poll window is
`max_wait * 2` polls of 0.5 seconds each. -/
def max_wait : Nat := 10

/-- The `asyncio.sleep(0.5)` poll interval of `start_server`, in
milliseconds. -/
def poll_interval_ms : Nat := 500

/-- Outcomes of the external effects a single `start_server` call can
perform: `alive0` is `Popen.poll() is None` for a pre-existing handle,
`preHealth` the pre-spawn port probe, `spawnResult` the `subprocess.Popen`
call (pid or raised exception), `pollAlive`/`healthy` the per-iteration
process poll and health probe inside the wait loop, and
`stdoutNonempty`/`stdoutDecoded` the captured output if the process exits:
`stdoutNonempty` is Python truthiness of the raw `stdout` bytes while
`stdoutDecoded` is `stdout.decode(utf-8, errors=ignore)` — the decoded
string can be empty even when the raw bytes are not. -/
structure StartOracle where
  alive0 : Nat → Bool
  preHealth : Bool
  spawnResult : Except String Nat
  pollAlive : Nat → Bool
  healthy : Nat → Bool
  stdoutNonempty : Bool
  stdoutDecoded : String

/-- The trailing `n` characters of a string, modelling Python slicing
`s[-n:]`. -/
def tailChars (n : Nat) (s : String) : String :=
  String.mk (s.data.drop (s.data.length - n))

/-- The error message captured when the spawned process exits inside the
wait window: `stdout.decode(utf-8, errors=ignore)[-500:] if stdout else`
the fixed fallback text. -/
def exitErrorMsg (stdoutNonempty : Bool) (stdoutDecoded : String) : String :=
  if stdoutNonempty then tailChars 500 stdoutDecoded else "未知错误"

/-- The `if server.process and server.process.poll() is None` guard of
`start_server`. -/
def handleAlive (o : StartOracle) : Option Nat → Bool
  | some pid => o.alive0 pid
  | none => false

/-- The bounded wait loop of `start_server` (`for i in range(max_wait * 2)`),
acting on the server record: each iteration first checks whether the process
exited (capturing the error output and failing), then probes health
(succeeding with a cleared error); an exhausted loop optimistically marks the
server `"running"` and reports success. -/
def startWait (o : StartOracle) : Nat → Nat → MCPServerInfo → MCPServerInfo × Bool
  | _, 0, server => ({ server with status := "running" }, true)
  | i, fuel + 1, server =>
    if o.pollAlive i then
      if o.healthy i then
        ({ server with status := "running", error := none }, true)
      else
        startWait o (i + 1) fuel server
    else
      ({ server with status := "failed",
                     error := some (exitErrorMsg o.stdoutNonempty o.stdoutDecoded) }, false)

/-- `start_server`: reject unknown names and disabled servers; fail (status
`"failed"`, error set) when the launch script is absent; succeed without any
state change when the recorded handle is still alive; succeed (status
`"running"`) without spawning when the port already answers the probe;
otherwise spawn — a raised spawn error yields `"failed"` with the exception
text, a successful spawn records the handle, appends it to the cleanup
registry, and runs the bounded wait loop. -/
def start_server (fs : List String) (o : StartOracle) (st : ManagerState)
    (name : String) : ManagerState × Bool :=
  match lookupA st.servers name with
  | none => (st, false)
  | some server =>
    if server.enabled then
      match server.script_path with
      | none =>
        let srv := { server with status := "failed", error := some "脚本文件不存在" }
        ({ st with servers := updateA st.servers name srv }, false)
      | some p =>
        if p ∈ fs then
          if handleAlive o server.process then
            (st, true)
          else if o.preHealth then
            let srv := { server with status := "running" }
            ({ st with servers := updateA st.servers name srv }, true)
          else
            match o.spawnResult with
            | Except.error e =>
              let srv := { server with status := "failed", error := some e }
              ({ st with servers := updateA st.servers name srv }, false)
            | Except.ok pid =>
              let srv := { server with status := "starting", process := some pid }
              let res := startWait o 0 (max_wait * 2) srv
              ({ servers := updateA st.servers name res.1,
                 registry := st.registry ++ [pid] }, res.2)
        else
          let srv := { server with status := "failed", error := some "脚本文件不存在" }
          ({ st with servers := updateA st.servers name srv }, false)
    else (st, false)

/-- Outcomes of the external effects of one `stop_server` call:
whether `os.killpg(..., SIGTERM)` raises, whether the graceful
`process.wait(timeout=5)` times out, and whether the forced
`os.killpg(..., SIGKILL)` raises. -/
structure StopOracle where
  killpgTermRaises : Bool
  waitTimesOut : Bool
  killpgKillRaises : Bool

/-- `stop_server`: unknown names fail; a known server with no recorded handle
is marked `"stopped"` and succeeds; otherwise signal the process group —
any exception escaping the graceful/forced sequence is caught and reported
as failure with the state untouched, and on success the handle is cleared
and the status set to `"stopped"`. -/
def stop_server (o : StopOracle) (st : ManagerState) (name : String) :
    ManagerState × Bool :=
  match lookupA st.servers name with
  | none => (st, false)
  | some server =>
    match server.process with
    | none =>
      let srv := { server with status := "stopped" }
      ({ st with servers := updateA st.servers name srv }, true)
    | some _ =>
      if o.killpgTermRaises then (st, false)
      else if o.waitTimesOut && o.killpgKillRaises then (st, false)
      else
        let srv := { server with process := none, status := "stopped" }
        ({ st with servers := updateA st.servers name srv }, true)

/-- The sequential loop of `start_all_enabled` over the enabled servers:
servers with a resolvable script path go through `start_server`, the others
are recorded as `False` without any state change. -/
def start_all_go (fs : List String) (oracleFor : String → StartOracle) :
    ManagerState → List MCPServerInfo → List (String × Bool) →
    ManagerState × List (String × Bool)
  | st, [], acc => (st, acc)
  | st, s :: rest, acc =>
    match s.script_path with
    | some _ =>
      let r := start_server fs (oracleFor s.name) st s.name
      start_all_go fs oracleFor r.1 rest (acc ++ [(s.name, r.2)])
    | none => start_all_go fs oracleFor st rest (acc ++ [(s.name, false)])

/-- `start_all_enabled`: reload the definitions into `self.servers`, then
start each enabled server sequentially, returning the per-name result map. -/
def start_all_enabled (fs : List String) (root : String)
    (cfg : List (String × ServerConfig)) (oracleFor : String → StartOracle)
    (st : ManagerState) : ManagerState × List (String × Bool) :=
  let servers := parse_mcp_servers fs root cfg
  start_all_go fs oracleFor { st with servers := servers }
    ((servers.map Prod.snd).filter (fun s => s.enabled)) []

/-- One row of the `get_status` snapshot. -/
structure StatusEntry where
  enabled : Bool
  status : String
  port : Nat
  url : String
  error : Option String
  has_script : Bool
deriving Repr, DecidableEq

/-- `get_status`: the read-only per-server projection
`{enabled, status, port, url, error, has_script}`. -/
def get_status (st : ManagerState) : List (String × StatusEntry) :=
  st.servers.map (fun p =>
    (p.1, { enabled := p.2.enabled, status := p.2.status, port := p.2.port,
            url := p.2.url, error := p.2.error,
            has_script := p.2.script_path.isSome }))

/-- The cleanup-registry superset invariant: every process handle recorded in
some server's runtime state is tracked by the global cleanup registry. -/
def registryInv (st : ManagerState) : Prop :=
  ∀ nm srv pid, lookupA st.servers nm = some srv → srv.process = some pid →
    pid ∈ st.registry

/-- Behaviour of one tracked process under the escalating termination of
`_cleanup_all_processes`: its current liveness, whether each signalling call
raises (`os.killpg` raising `ProcessLookupError` and friends,
`process.terminate`/`process.kill` raising), and whether each successful
signal actually kills it. -/
structure ProcB where
  alive : Bool
  pgTermRaises : Bool
  dieOnPgTerm : Bool
  terminateRaises : Bool
  dieOnTerminate : Bool
  pgKillRaises : Bool
  dieOnPgKill : Bool
  killRaises : Bool
  dieOnKill : Bool
deriving Repr, DecidableEq

/-- `os.killpg(pgid, SIGTERM)`: may raise; otherwise the process dies when it
honours SIGTERM. -/
def opPgTerm (b : ProcB) : Except String ProcB :=
  if b.pgTermRaises then Except.error "ProcessLookupError"
  else Except.ok { b with alive := b.alive && !b.dieOnPgTerm }

/-- `process.terminate()`: may raise; otherwise kills when honoured. -/
def opTerminate (b : ProcB) : Except String ProcB :=
  if b.terminateRaises then Except.error "OSError"
  else Except.ok { b with alive := b.alive && !b.dieOnTerminate }

/-- `os.killpg(pgid, SIGKILL)`: may raise; otherwise kills when honoured. -/
def opPgKill (b : ProcB) : Except String ProcB :=
  if b.pgKillRaises then Except.error "ProcessLookupError"
  else Except.ok { b with alive := b.alive && !b.dieOnPgKill }

/-- `process.kill()`: may raise; otherwise kills when honoured. -/
def opKill (b : ProcB) : Except String ProcB :=
  if b.killRaises then Except.error "OSError"
  else Except.ok { b with alive := b.alive && !b.dieOnKill }

/-- An inner `try ... except: pass` around one signalling call: a raise leaves
the process state as it was. -/
def tryOp (f : ProcB → Except String ProcB) (b : ProcB) : ProcB :=
  match f b with
  | Except.ok b' => b'
  | Except.error _ => b

/-- The per-entry body of the `_cleanup_all_processes` loop before its outer
`try/except` is applied: if the process is still alive, escalate — group
SIGTERM (caught), then `terminate()` if still alive (caught), then group
SIGKILL followed by `kill()` if still alive (each caught), then a final
bounded `wait` (caught, no state effect). Every signalling call is
individually wrapped, so the body never actually escapes with an error. -/
def cleanupProcE (b : ProcB) : Except String ProcB :=
  if b.alive then
    let b1 := tryOp opPgTerm b
    let b2 := if b1.alive then tryOp opTerminate b1 else b1
    let b3 := if b2.alive then tryOp opKill (tryOp opPgKill b2) else b2
    Except.ok b3
  else Except.ok b

/-- The per-entry body with the outer `try/except Exception` of the loop:
any escaping error is swallowed, leaving the entry as it was. -/
def cleanupProc (b : ProcB) : ProcB :=
  match cleanupProcE b with
  | Except.ok b' => b'
  | Except.error _ => b

/-- Process-wide cleanup state: the `_all_started_processes` registry (pids)
plus the behaviour of every process in the system. -/
structure CleanupState where
  registry : List Nat
  procs : Nat → ProcB

/-- Point update of the process table. -/
def updProc (w : Nat → ProcB) (pid : Nat) (f : ProcB → ProcB) : Nat → ProcB :=
  fun q => if q = pid then f (w q) else w q

/-- `_cleanup_all_processes`: return immediately when the registry is empty;
otherwise walk every tracked entry with the escalating, error-swallowing
per-entry body and clear the registry. -/
def _cleanup_all_processes (st : CleanupState) : CleanupState :=
  if st.registry.isEmpty then st
  else
    { registry := [],
      procs := st.registry.foldl (fun w pid => updProc w pid cleanupProc) st.procs }

/-- External effects of one health-monitor iteration for one server: the
probe outcome for that server, an optionally injected exception raised while
handling it (the hypothetical per-server error the monitor must cope with),
and the oracle for a restart attempt. -/
structure MonitorOracle where
  healthy : String → Bool
  raises : String → Option String
  startO : String → StartOracle

/-- The per-server body of `_health_check_loop`: skip disabled or stopped
servers; a healthy probe promotes any non-`"running"` status back to
`"running"`; an unhealthy probe on a `"running"` server marks it `"failed"`
and immediately attempts one restart through `start_server`. An injected
exception aborts the body, carrying the state reached so far. -/
def monitor_server_step (fs : List String) (mo : MonitorOracle) (st : ManagerState)
    (name : String) : Except (String × ManagerState) ManagerState :=
  match mo.raises name with
  | some e => Except.error (e, st)
  | none =>
    match lookupA st.servers name with
    | none => Except.ok st
    | some server =>
      if !server.enabled || server.status == "stopped" then Except.ok st
      else if mo.healthy name then
        if server.status == "running" then Except.ok st
        else
          let srv := { server with status := "running" }
          Except.ok { st with servers := updateA st.servers name srv }
      else
        if server.status == "running" then
          let srv := { server with status := "failed" }
          let st1 := { st with servers := updateA st.servers name srv }
          Except.ok (start_server fs (mo.startO name) st1 name).1
        else Except.ok st

/-- The `for name, server in self.servers.items()` loop of one monitor cycle,
before the cycle-level `try/except` is applied: an exception raised while
handling one server propagates out of the loop, carrying the state reached
so far (earlier servers' updates persist). -/
def monitor_run (fs : List String) (mo : MonitorOracle) :
    ManagerState → List String → Except (String × ManagerState) ManagerState
  | st, [] => Except.ok st
  | st, n :: rest =>
    match monitor_server_step fs mo st n with
    | Except.ok st' => monitor_run fs mo st' rest
    | Except.error pr => Except.error pr

/-- One cycle of `_health_check_loop` over an explicit name list, with the
cycle-level `except Exception` of the source applied: an error escaping the
for-loop is swallowed (logged), ending the cycle with the state reached at
the raise. -/
def monitor_cycle_list (fs : List String) (mo : MonitorOracle) (st : ManagerState)
    (names : List String) : ManagerState :=
  match monitor_run fs mo st names with
  | Except.ok st' => st'
  | Except.error pr => pr.2

/-- One cycle of `_health_check_loop` over the manager's own server table. -/
def monitor_cycle (fs : List String) (mo : MonitorOracle) (st : ManagerState) :
    ManagerState :=
  monitor_cycle_list fs mo st (st.servers.map Prod.fst)

/-- A start oracle for scenarios in which no process ever exists beforehand,
the probe never answers, the spawn succeeds with pid 1 and the spawned
process stays alive: every pre-spawn guard falls through to the spawn. -/
def oracleNoop : StartOracle :=
  { alive0 := fun _ => false, preHealth := false, spawnResult := Except.ok 1,
    pollAlive := fun _ => true, healthy := fun _ => false,
    stdoutNonempty := false, stdoutDecoded := "" }

/-- A freshly parsed, enabled server record used as a concrete fixture. -/
def srvFresh : MCPServerInfo :=
  { name := "a", description := "", url := "", port := 8080, host := "localhost",
    enabled := true, script_path := some "r/s.py", config := [],
    process := none, status := "stopped", error := none }

theorem lookupA_updateA_self {α : Type} (l : List (String × α)) (k : String) (v w : α)
    (h : lookupA l k = some w) : lookupA (updateA l k v) k = some v := by
  induction l with
  | nil => simp [lookupA] at h
  | cons hd tl ih =>
    obtain ⟨k0, v0⟩ := hd
    by_cases hk : k0 = k
    · simp [lookupA, updateA, hk]
    · simp [lookupA, updateA, hk] at h ⊢
      exact ih h

theorem lookupA_updateA_ne {α : Type} (l : List (String × α)) (k k' : String) (v : α)
    (h : k' ≠ k) : lookupA (updateA l k v) k' = lookupA l k' := by
  induction l with
  | nil => simp [updateA]
  | cons hd tl ih =>
    obtain ⟨k0, v0⟩ := hd
    by_cases hk : k0 = k
    · subst hk
      have hne : ¬k0 = k' := fun h' => h h'.symm
      simp [lookupA, updateA, hne]
    · simp [lookupA, updateA, hk]
      by_cases hk' : k0 = k'
      · simp [hk']
      · simp [hk', ih]

theorem lookupA_setVar_ne (env : List (String × String)) (k k' v : String)
    (h : k' ≠ k) : lookupA (setVar env k v) k' = lookupA env k' := by
  have hne : ¬k = k' := fun h' => h h'.symm
  induction env with
  | nil => simp [setVar, lookupA, hne]
  | cons hd tl ih =>
    obtain ⟨k0, v0⟩ := hd
    by_cases hk : k0 = k
    · subst hk
      simp [setVar, lookupA, hne]
    · simp [setVar, lookupA, hk]
      by_cases hk' : k0 = k'
      · simp [hk']
      · simp [hk', ih]

theorem lookupA_condSet_ne (env : List (String × String)) (k k' : String)
    (ov : Option String) (h : k' ≠ k) :
    lookupA (condSet env k ov) k' = lookupA env k' := by
  cases ov with
  | none => rfl
  | some v => exact lookupA_setVar_ne env k k' v h

theorem cleanup_all_empty (st : CleanupState) (h : st.registry = []) :
    _cleanup_all_processes st = st := by
  simp [_cleanup_all_processes, h]

/-- C1: calling `_cleanup_all_processes` twice in succession never raises —
every termination step of the per-entry body is wrapped so failures are
swallowed (`cleanupProcE` always returns `ok`) — the first call removes
every tracked entry, the second call finds the registry empty and returns
immediately (it is a no-op), and afterwards no live tracked process remains. -/
theorem cleanup_all_twice_safe (st : CleanupState) :
    (_cleanup_all_processes st).registry = [] ∧
    _cleanup_all_processes (_cleanup_all_processes st) = _cleanup_all_processes st ∧
    ((_cleanup_all_processes st).registry.all
      (fun pid => !((_cleanup_all_processes st).procs pid).alive)) = true ∧
    (∀ b : ProcB, cleanupProcE b = Except.ok (cleanupProc b)) := by
  have hreg : (_cleanup_all_processes st).registry = [] := by
    by_cases h : st.registry.isEmpty
    · simp only [_cleanup_all_processes, if_pos h]
      exact List.isEmpty_iff.mp h
    · simp only [_cleanup_all_processes, if_neg h]
  refine ⟨hreg, ?_, ?_, ?_⟩
  · exact cleanup_all_empty _ hreg
  · rw [hreg]; rfl
  · intro b
    by_cases hb : b.alive <;> simp [cleanupProcE, cleanupProc, hb]

/-- C7: the health probe targets `GET http://{host}:{port}/sse` with a
2-second timeout; it reports healthy exactly when the HTTP status code is
200 or 500, and any transport-level failure (any raised exception) yields
unhealthy — the probe itself never raises, every exception being caught and
mapped to `false`. -/
theorem check_health_contract :
    (∀ resp : Except String Nat,
      _check_health resp = true ↔ (resp = Except.ok 200 ∨ resp = Except.ok 500)) ∧
    (∀ e : String, _check_health (Except.error e) = false) ∧
    health_timeout_seconds = 2 ∧
    (∀ host : String, ∀ port : Nat,
      health_url host port = "http://" ++ host ++ ":" ++ toString port ++ "/sse") := by
  refine ⟨?_, fun e => rfl, rfl, fun host port => rfl⟩
  intro resp
  cases resp with
  | ok code => simp [_check_health]
  | error e => simp [_check_health]

/-- C10: `stop_server` on a name not present in the server table returns
`False` and leaves the state untouched, whereas on a known server with no
recorded process handle it sets the status to `"stopped"` and returns
`True`. -/
theorem stop_server_unknown_vs_handleless (o : StopOracle) (st : ManagerState)
    (name : String) :
    (lookupA st.servers name = none → stop_server o st name = (st, false)) ∧
    (∀ server : MCPServerInfo, lookupA st.servers name = some server →
      server.process = none →
      (stop_server o st name).2 = true ∧
      lookupA (stop_server o st name).1.servers name
        = some ({ server with status := "stopped" })) := by
  constructor
  · intro h
    simp [stop_server, h]
  · intro server h hp
    refine ⟨?_, ?_⟩
    · simp [stop_server, h, hp]
    · simp only [stop_server, h, hp]
      exact lookupA_updateA_self st.servers name _ server h

/-- Witness for C10: concretely, stopping the unknown name `"a"` in an empty
table fails without state change, and stopping a known handleless server
succeeds. -/
theorem stop_server_unknown_vs_handleless_witness :
    stop_server ⟨false, false, false⟩ ⟨[], []⟩ "a" = (⟨[], []⟩, false) ∧
    ((stop_server ⟨false, false, false⟩ ⟨[("a", srvFresh)], []⟩ "a").2 = true ∧
      lookupA (stop_server ⟨false, false, false⟩
        ⟨[("a", srvFresh)], []⟩ "a").1.servers "a"
        = some ({ srvFresh with status := "stopped" })) :=
  ⟨(stop_server_unknown_vs_handleless ⟨false, false, false⟩ ⟨[], []⟩ "a").1 rfl,
   (stop_server_unknown_vs_handleless ⟨false, false, false⟩
     ⟨[("a", srvFresh)], []⟩ "a").2 srvFresh rfl rfl⟩

/-- C2 counterexample: for an enabled `elasticsearch` definition whose launch
script is absent from the filesystem, `start_all_enabled` does return `false`
for that name, but the subsequent status report shows status `"stopped"` with
`error = none` — not status `"failed"` with a non-empty error, because
`start_all_enabled` skips `start_server` entirely when the script path was
unresolvable at parse time. -/
theorem start_all_missing_script_counterexample :
    (start_all_enabled [] "root"
      [("elasticsearch", { enabled := true, description := "",
                           config := [("url", "http://localhost:9200")] })]
      (fun _ => oracleNoop) { servers := [], registry := [] }).2
      = [("elasticsearch", false)] ∧
    lookupA (get_status (start_all_enabled [] "root"
      [("elasticsearch", { enabled := true, description := "",
                           config := [("url", "http://localhost:9200")] })]
      (fun _ => oracleNoop) { servers := [], registry := [] }).1) "elasticsearch"
      = some { enabled := true, status := "stopped", port := 9200,
               url := "http://localhost:9200", error := none,
               has_script := false } := by
  constructor <;> decide

/-- C5 counterexample: if the spawned process exits during the poll window
having produced raw output whose UTF-8 `errors=ignore` decoding is empty
(e.g. a single invalid byte), the status does become `"failed"` and
`start_server` returns `false`, but the recorded error message is the empty
string — not a non-empty string as claimed. -/
theorem start_server_exit_empty_error_counterexample :
    start_server ["r/s.py"]
      { alive0 := fun _ => false, preHealth := false, spawnResult := Except.ok 1,
        pollAlive := fun _ => false, healthy := fun _ => false,
        stdoutNonempty := true, stdoutDecoded := "" }
      { servers := [("a", srvFresh)], registry := [] } "a"
      = ({ servers := [("a", { srvFresh with status := "failed", process := some 1, error := some "" })], registry := [1] }, false) := by
  decide

/-- C6 counterexample: a known, enabled server whose recorded handle is still
alive but whose launch script is no longer resolvable makes `start_server`
return `false` and overwrite the status to `"failed"` — the script-existence
check precedes the already-running check, so the claim fails as stated. -/
theorem start_server_alive_missing_script_counterexample :
    start_server []
      { alive0 := fun _ => true, preHealth := false, spawnResult := Except.ok 1,
        pollAlive := fun _ => true, healthy := fun _ => false,
        stdoutNonempty := false, stdoutDecoded := "" }
      { servers := [("a", { srvFresh with script_path := none, process := some 7, status := "running" })], registry := [7] } "a"
      = ({ servers := [("a", { srvFresh with script_path := none, process := some 7, status := "failed", error := some "脚本文件不存在" })], registry := [7] }, false) := by
  decide

/-- C8 counterexample: an unknown key under the `elasticsearch` definition's
config (`custom_key`) is not forwarded into the spawned environment under any
naming convention — neither verbatim nor uppercased — while the hardcoded
key `es_url` is; `_build_env` forwards only four specific keys, not every
config pair. -/
theorem build_env_unknown_key_counterexample :
    lookupA (_build_env "r" []
      ({ srvFresh with name := "elasticsearch",
                       config := [("custom_key", "v"), ("es_url", "http://es:9200")] }))
      "CUSTOM_KEY" = none ∧
    lookupA (_build_env "r" []
      ({ srvFresh with name := "elasticsearch",
                       config := [("custom_key", "v"), ("es_url", "http://es:9200")] }))
      "custom_key" = none ∧
    lookupA (_build_env "r" []
      ({ srvFresh with name := "elasticsearch",
                       config := [("custom_key", "v"), ("es_url", "http://es:9200")] }))
      "ES_URL" = some "http://es:9200" := by
  refine ⟨?_, ?_, ?_⟩ <;> decide

/-- C9 counterexample: within one monitor cycle over servers `a` then `b`,
an error raised while handling `a` leaves `b` unprobed in that cycle — the
state is returned unchanged, whereas the same cycle without the error
promotes the healthy `b` from `"starting"` to `"running"`. The
`try/except` of `_health_check_loop` wraps the whole per-cycle loop, not
each server. -/
theorem monitor_cycle_abort_counterexample :
    monitor_cycle []
      { healthy := fun n => n == "b",
        raises := fun n => if n == "a" then some "boom" else none,
        startO := fun _ => oracleNoop }
      { servers := [("a", { srvFresh with status := "running" }),
                    ("b", { srvFresh with name := "b", status := "starting" })],
        registry := [] }
      = { servers := [("a", { srvFresh with status := "running" }),
                      ("b", { srvFresh with name := "b", status := "starting" })],
          registry := [] } ∧
    lookupA (monitor_cycle []
      { healthy := fun n => n == "b", raises := fun _ => none,
        startO := fun _ => oracleNoop }
      { servers := [("a", { srvFresh with status := "running" }),
                    ("b", { srvFresh with name := "b", status := "starting" })],
        registry := [] }).servers "b"
      = some ({ srvFresh with name := "b", status := "running" }) := by
  constructor <;> decide

theorem startWait_process (o : StartOracle) :
    ∀ fuel i s, ((startWait o i fuel s).1).process = s.process := by
  intro fuel
  induction fuel with
  | zero => intro i s; rfl
  | succ n ih =>
    intro i s
    simp only [startWait]
    by_cases h1 : o.pollAlive i = true
    · by_cases h2 : o.healthy i = true
      · simp [h1, h2]
      · simp only [Bool.not_eq_true] at h2
        simp [h1, h2, ih]
    · simp only [Bool.not_eq_true] at h1
      simp [h1]

theorem startWait_timeout (o : StartOracle) :
    ∀ fuel i s,
    (∀ j, i ≤ j → j < i + fuel → o.pollAlive j = true ∧ o.healthy j = false) →
    startWait o i fuel s = ({ s with status := "running" }, true) := by
  intro fuel
  induction fuel with
  | zero => intro i s _; rfl
  | succ n ih =>
    intro i s h
    have hi := h i (le_refl i) (by omega)
    simp only [startWait, hi.1, hi.2]
    exact ih (i + 1) s (fun j hj1 hj2 => h j (by omega) (by omega))

theorem startWait_exit (o : StartOracle) (k : Nat) (hpoll : o.pollAlive k = false) :
    ∀ fuel i s, i ≤ k → k < i + fuel →
    (∀ j, i ≤ j → j < k → o.pollAlive j = true ∧ o.healthy j = false) →
    startWait o i fuel s
      = ({ s with status := "failed", error := some (exitErrorMsg o.stdoutNonempty o.stdoutDecoded) }, false) := by
  intro fuel
  induction fuel with
  | zero => intro i s h1 h2 _; omega
  | succ n ih =>
    intro i s h1 h2 h3
    by_cases hik : i = k
    · subst hik
      simp [startWait, hpoll]
    · have hi := h3 i (le_refl i) (by omega)
      simp only [startWait, hi.1, hi.2]
      exact ih (i + 1) s (by omega) (by omega) (fun j hj1 hj2 => h3 j (by omega) hj2)

theorem registryInv_update (st : ManagerState) (name : String)
    (server srv' : MCPServerInfo) (h : registryInv st)
    (hl : lookupA st.servers name = some server)
    (hp : srv'.process = server.process) :
    registryInv { st with servers := updateA st.servers name srv' } := by
  intro nm srv pid hlu hpp
  by_cases hnm : nm = name
  · subst hnm
    rw [lookupA_updateA_self st.servers nm srv' server hl] at hlu
    have hs : srv' = srv := by injection hlu
    subst hs
    exact h nm server pid hl (hp.symm.trans hpp)
  · rw [lookupA_updateA_ne st.servers name nm srv' hnm] at hlu
    exact h nm srv pid hlu hpp

theorem registryInv_spawn (st : ManagerState) (name : String)
    (server srv' : MCPServerInfo) (pid : Nat) (h : registryInv st)
    (hl : lookupA st.servers name = some server)
    (hp : srv'.process = some pid) :
    registryInv { servers := updateA st.servers name srv',
                  registry := st.registry ++ [pid] } := by
  intro nm srv q hlu hq
  by_cases hnm : nm = name
  · subst hnm
    rw [lookupA_updateA_self st.servers nm srv' server hl] at hlu
    have hs : srv' = srv := by injection hlu
    subst hs
    have hq' : some pid = some q := hp.symm.trans hq
    have : pid = q := by injection hq'
    subst this
    simp
  · rw [lookupA_updateA_ne st.servers name nm srv' hnm] at hlu
    have := h nm srv q hlu hq
    simp [this]

theorem start_server_noscript_eq (fs : List String) (o : StartOracle)
    (st : ManagerState) (name : String) (server : MCPServerInfo)
    (h1 : lookupA st.servers name = some server) (h2 : server.enabled = true)
    (h3 : server.script_path = none) :
    start_server fs o st name
      = ({ st with servers := updateA st.servers name ({ server with status := "failed", error := some "脚本文件不存在" }) }, false) := by
  simp [start_server, h1, h2, h3]

theorem start_server_script_missing_eq (fs : List String) (o : StartOracle)
    (st : ManagerState) (name : String) (server : MCPServerInfo) (p : String)
    (h1 : lookupA st.servers name = some server) (h2 : server.enabled = true)
    (h3 : server.script_path = some p) (h4 : p ∉ fs) :
    start_server fs o st name
      = ({ st with servers := updateA st.servers name ({ server with status := "failed", error := some "脚本文件不存在" }) }, false) := by
  simp [start_server, h1, h2, h3, h4]

theorem start_server_alive_eq (fs : List String) (o : StartOracle)
    (st : ManagerState) (name : String) (server : MCPServerInfo) (p : String)
    (h1 : lookupA st.servers name = some server) (h2 : server.enabled = true)
    (h3 : server.script_path = some p) (h4 : p ∈ fs)
    (h5 : handleAlive o server.process = true) :
    start_server fs o st name = (st, true) := by
  simp [start_server, h1, h2, h3, h4, h5]

theorem start_server_prehealth_eq (fs : List String) (o : StartOracle)
    (st : ManagerState) (name : String) (server : MCPServerInfo) (p : String)
    (h1 : lookupA st.servers name = some server) (h2 : server.enabled = true)
    (h3 : server.script_path = some p) (h4 : p ∈ fs)
    (h5 : handleAlive o server.process = false) (h6 : o.preHealth = true) :
    start_server fs o st name
      = ({ st with servers := updateA st.servers name ({ server with status := "running" }) }, true) := by
  simp [start_server, h1, h2, h3, h4, h5, h6]

theorem start_server_spawnfail_eq (fs : List String) (o : StartOracle)
    (st : ManagerState) (name : String) (server : MCPServerInfo) (p : String)
    (e : String)
    (h1 : lookupA st.servers name = some server) (h2 : server.enabled = true)
    (h3 : server.script_path = some p) (h4 : p ∈ fs)
    (h5 : handleAlive o server.process = false) (h6 : o.preHealth = false)
    (h7 : o.spawnResult = Except.error e) :
    start_server fs o st name
      = ({ st with servers := updateA st.servers name ({ server with status := "failed", error := some e }) }, false) := by
  simp [start_server, h1, h2, h3, h4, h5, h6, h7]

theorem start_server_spawn_eq (fs : List String) (o : StartOracle)
    (st : ManagerState) (name : String) (server : MCPServerInfo) (p : String)
    (pid : Nat)
    (h1 : lookupA st.servers name = some server) (h2 : server.enabled = true)
    (h3 : server.script_path = some p) (h4 : p ∈ fs)
    (h5 : handleAlive o server.process = false) (h6 : o.preHealth = false)
    (h7 : o.spawnResult = Except.ok pid) :
    start_server fs o st name
      = ({ servers := updateA st.servers name (startWait o 0 (max_wait * 2) ({ server with status := "starting", process := some pid })).1, registry := st.registry ++ [pid] }, (startWait o 0 (max_wait * 2) ({ server with status := "starting", process := some pid })).2) := by
  simp [start_server, h1, h2, h3, h4, h5, h6, h7]

/-- C3: a successful spawn inside `start_server` appends the new process
handle to the global cleanup registry before `start_server` returns, and
every `start_server` call preserves the invariant that the registry's set of
tracked entries is a superset of the process handles referenced by any
server's runtime state. -/
theorem start_server_registers_handle (fs : List String) (o : StartOracle)
    (st : ManagerState) (name : String) :
    (registryInv st → registryInv (start_server fs o st name).1) ∧
    (∀ server p pid, lookupA st.servers name = some server →
      server.enabled = true → server.script_path = some p → p ∈ fs →
      handleAlive o server.process = false → o.preHealth = false →
      o.spawnResult = Except.ok pid →
      pid ∈ (start_server fs o st name).1.registry) := by
  constructor
  · intro hinv
    cases hl : lookupA st.servers name with
    | none => simpa [start_server, hl] using hinv
    | some server =>
      cases hen : server.enabled with
      | false => simpa [start_server, hl, hen] using hinv
      | true =>
        cases hsp : server.script_path with
        | none =>
          rw [start_server_noscript_eq fs o st name server hl hen hsp]
          exact registryInv_update st name server _ hinv hl rfl
        | some p =>
          by_cases hpfs : p ∈ fs
          · cases hha : handleAlive o server.process with
            | true =>
              rw [start_server_alive_eq fs o st name server p hl hen hsp hpfs hha]
              exact hinv
            | false =>
              cases hph : o.preHealth with
              | true =>
                rw [start_server_prehealth_eq fs o st name server p hl hen hsp hpfs hha hph]
                exact registryInv_update st name server _ hinv hl rfl
              | false =>
                cases hspawn : o.spawnResult with
                | error e =>
                  rw [start_server_spawnfail_eq fs o st name server p e hl hen hsp hpfs hha hph hspawn]
                  exact registryInv_update st name server _ hinv hl rfl
                | ok pid =>
                  rw [start_server_spawn_eq fs o st name server p pid hl hen hsp hpfs hha hph hspawn]
                  exact registryInv_spawn st name server _ pid hinv hl
                    (by rw [startWait_process])
          · rw [start_server_script_missing_eq fs o st name server p hl hen hsp hpfs]
            exact registryInv_update st name server _ hinv hl rfl
  · intro server p pid h1 h2 h3 h4 h5 h6 h7
    rw [start_server_spawn_eq fs o st name server p pid h1 h2 h3 h4 h5 h6 h7]
    simp

/-- Witness for C3: in a one-server table with no prior handles, the registry
invariant holds, is preserved through a concrete spawning `start_server`
call, and the spawned pid 1 is tracked by the returned registry. -/
theorem start_server_registers_handle_witness :
    registryInv ({ servers := [("a", srvFresh)], registry := [] } : ManagerState) ∧
    registryInv (start_server ["r/s.py"] oracleNoop
      { servers := [("a", srvFresh)], registry := [] } "a").1 ∧
    1 ∈ (start_server ["r/s.py"] oracleNoop
      { servers := [("a", srvFresh)], registry := [] } "a").1.registry := by
  have hinv : registryInv ({ servers := [("a", srvFresh)], registry := [] } : ManagerState) := by
    intro nm srv pid hl hp
    by_cases h : "a" = nm
    · simp only [lookupA, if_pos h] at hl
      have hs : srvFresh = srv := by injection hl
      rw [← hs] at hp
      simp [srvFresh] at hp
    · simp [lookupA, if_neg h] at hl
  refine ⟨hinv, ?_, ?_⟩
  · exact (start_server_registers_handle ["r/s.py"] oracleNoop
      { servers := [("a", srvFresh)], registry := [] } "a").1 hinv
  · exact (start_server_registers_handle ["r/s.py"] oracleNoop
      { servers := [("a", srvFresh)], registry := [] } "a").2 srvFresh "r/s.py" 1
      rfl rfl rfl (by decide) rfl rfl rfl

/-- C4: when the bounded health-poll wait (`max_wait * 2 = 20` polls of
500 ms each, 10 s total) is exhausted while the spawned process stays alive
and no probe ever succeeds, `start_server` optimistically sets the status to
`"running"` and returns success. -/
theorem start_server_timeout_optimistic (fs : List String) (o : StartOracle)
    (st : ManagerState) (name : String) (server : MCPServerInfo) (p : String)
    (pid : Nat)
    (h1 : lookupA st.servers name = some server) (h2 : server.enabled = true)
    (h3 : server.script_path = some p) (h4 : p ∈ fs)
    (h5 : handleAlive o server.process = false) (h6 : o.preHealth = false)
    (h7 : o.spawnResult = Except.ok pid)
    (h8 : ∀ j, j < max_wait * 2 → o.pollAlive j = true ∧ o.healthy j = false) :
    (start_server fs o st name).2 = true ∧
    lookupA (start_server fs o st name).1.servers name
      = some ({ server with process := some pid, status := "running" }) ∧
    max_wait * 2 = 20 ∧ poll_interval_ms = 500 := by
  have hw := startWait_timeout o (max_wait * 2) 0
    ({ server with status := "starting", process := some pid })
    (fun j hj1 hj2 => h8 j (by omega))
  rw [start_server_spawn_eq fs o st name server p pid h1 h2 h3 h4 h5 h6 h7, hw]
  exact ⟨rfl, lookupA_updateA_self st.servers name _ server h1, rfl, rfl⟩

/-- Witness for C4: a concrete spawn whose process stays alive for the whole
window with no successful probe returns success with status `"running"`. -/
theorem start_server_timeout_optimistic_witness :
    (start_server ["r/s.py"] oracleNoop
      { servers := [("a", srvFresh)], registry := [] } "a").2 = true ∧
    lookupA (start_server ["r/s.py"] oracleNoop
      { servers := [("a", srvFresh)], registry := [] } "a").1.servers "a"
      = some ({ srvFresh with process := some 1, status := "running" }) :=
  ⟨(start_server_timeout_optimistic ["r/s.py"] oracleNoop
      { servers := [("a", srvFresh)], registry := [] } "a" srvFresh "r/s.py" 1
      rfl rfl rfl (by decide) rfl rfl rfl (by decide)).1,
   (start_server_timeout_optimistic ["r/s.py"] oracleNoop
      { servers := [("a", srvFresh)], registry := [] } "a" srvFresh "r/s.py" 1
      rfl rfl rfl (by decide) rfl rfl rfl (by decide)).2.1⟩

/-- C6 amended: for a known, enabled server whose launch script is still
present on disk and whose recorded process handle is still alive,
`start_server` returns success with the state completely unchanged — no
spawn, no status/error/handle mutation, no registry growth. -/
theorem start_server_idempotent_running (fs : List String) (o : StartOracle)
    (st : ManagerState) (name : String) (server : MCPServerInfo) (p : String)
    (pid : Nat)
    (h1 : lookupA st.servers name = some server) (h2 : server.enabled = true)
    (h3 : server.script_path = some p) (h4 : p ∈ fs)
    (h5 : server.process = some pid) (h6 : o.alive0 pid = true) :
    start_server fs o st name = (st, true) := by
  have hha : handleAlive o server.process = true := by
    rw [h5]; exact h6
  exact start_server_alive_eq fs o st name server p h1 h2 h3 h4 hha

/-- Witness for C6's amended claim: a concrete already-running server with
its script on disk is left untouched and reported started. -/
theorem start_server_idempotent_running_witness :
    start_server ["r/s.py"]
      { oracleNoop with alive0 := fun _ => true }
      { servers := [("a", { srvFresh with process := some 7, status := "running" })],
        registry := [7] } "a"
      = ({ servers := [("a", { srvFresh with process := some 7, status := "running" })],
           registry := [7] }, true) :=
  start_server_idempotent_running ["r/s.py"] _ _ "a"
    ({ srvFresh with process := some 7, status := "running" }) "r/s.py" 7
    rfl rfl rfl (by decide) rfl rfl

theorem tailChars_ne_empty (n : Nat) (hn : 0 < n) (s : String) (hs : s ≠ "") :
    tailChars n s ≠ "" := by
  cases s with
  | mk data =>
    intro h
    have hd : data ≠ [] := by
      intro hdd
      exact hs (by rw [hdd])
    have hdata : data.drop (data.length - n) = [] := by
      have hcong := congrArg String.data h
      simpa [tailChars] using hcong
    have hpos : 0 < data.length := List.length_pos.mpr hd
    have hlen := List.length_drop (data.length - n) data
    rw [hdata] at hlen
    simp at hlen
    omega

/-- C5 amended: if the spawned process exits during the health-poll window
before any probe succeeds, the status becomes `"failed"`, the error field is
set to the trailing 500 characters of the decoded captured output (or the
fixed fallback message when the process produced no raw output), and
`start_server` returns `false`; the recorded message is non-empty whenever
the raw output was empty (fallback case) or the decoded output is non-empty —
it can be empty only when non-empty raw output decodes to the empty string. -/
theorem start_server_exit_failed (fs : List String) (o : StartOracle)
    (st : ManagerState) (name : String) (server : MCPServerInfo) (p : String)
    (pid k : Nat)
    (h1 : lookupA st.servers name = some server) (h2 : server.enabled = true)
    (h3 : server.script_path = some p) (h4 : p ∈ fs)
    (h5 : handleAlive o server.process = false) (h6 : o.preHealth = false)
    (h7 : o.spawnResult = Except.ok pid)
    (hk : k < max_wait * 2) (hke : o.pollAlive k = false)
    (hbefore : ∀ j, j < k → o.pollAlive j = true ∧ o.healthy j = false) :
    (start_server fs o st name).2 = false ∧
    lookupA (start_server fs o st name).1.servers name
      = some ({ server with process := some pid, status := "failed", error := some (exitErrorMsg o.stdoutNonempty o.stdoutDecoded) }) ∧
    ((o.stdoutNonempty = false ∨ o.stdoutDecoded ≠ "") →
      exitErrorMsg o.stdoutNonempty o.stdoutDecoded ≠ "") := by
  have hw := startWait_exit o k hke (max_wait * 2) 0
    ({ server with status := "starting", process := some pid })
    (Nat.zero_le k) (by omega) (fun j hj1 hj2 => hbefore j hj2)
  rw [start_server_spawn_eq fs o st name server p pid h1 h2 h3 h4 h5 h6 h7, hw]
  refine ⟨rfl, lookupA_updateA_self st.servers name _ server h1, ?_⟩
  intro hx
  cases hn : o.stdoutNonempty with
  | false =>
    simp only [exitErrorMsg, Bool.false_eq_true, if_false]
    decide
  | true =>
    cases hx with
    | inl hfalse => rw [hn] at hfalse; exact absurd hfalse (by decide)
    | inr hd =>
      simp only [exitErrorMsg, if_pos rfl]
      exact tailChars_ne_empty 500 (by omega) o.stdoutDecoded hd

/-- Witness for C5's amended claim: a concrete spawn whose process exits at
the first poll with empty raw output records the non-empty fallback error
message, fails and returns `false`. -/
theorem start_server_exit_failed_witness :
    (start_server ["r/s.py"]
      ({ oracleNoop with pollAlive := fun _ => false })
      { servers := [("a", srvFresh)], registry := [] } "a").2 = false ∧
    lookupA (start_server ["r/s.py"]
      ({ oracleNoop with pollAlive := fun _ => false })
      { servers := [("a", srvFresh)], registry := [] } "a").1.servers "a"
      = some ({ srvFresh with process := some 1, status := "failed", error := some (exitErrorMsg false "") }) ∧
    exitErrorMsg false "" ≠ "" := by
  have h := start_server_exit_failed ["r/s.py"]
    ({ oracleNoop with pollAlive := fun _ => false })
    { servers := [("a", srvFresh)], registry := [] } "a" srvFresh "r/s.py" 1 0
    rfl rfl rfl (by decide) rfl rfl rfl (by decide) rfl (fun j hj => absurd hj (by omega))
  exact ⟨h.1, h.2.1, h.2.2 (Or.inl rfl)⟩

/-- C2 amended: for a single-entry definitions map whose server is enabled,
resolvable in `SERVER_SCRIPTS` but with the launch script absent on disk,
`start_all_enabled` returns `false` for that name, yet the subsequent status
report shows status `"stopped"` with a null error: the server is skipped
before `start_server` ever runs, so it is never marked `"failed"`. -/
theorem start_all_missing_script_amended (fs : List String) (root : String)
    (name : String) (sc : ServerConfig) (oracleFor : String → StartOracle)
    (st : ManagerState) (rel : String)
    (hen : sc.enabled = true)
    (hrel : lookupA SERVER_SCRIPTS name = some rel)
    (hfs : (root ++ "/" ++ rel) ∉ fs) :
    (start_all_enabled fs root [(name, sc)] oracleFor st).2 = [(name, false)] ∧
    lookupA (get_status (start_all_enabled fs root [(name, sc)] oracleFor st).1) name
      = some { enabled := true, status := "stopped", port := (parseHostPort ((lookupA sc.config "url").getD "")).2, url := (lookupA sc.config "url").getD "", error := none, has_script := false } := by
  have hscript : resolveScript fs root name = none := by
    simp [resolveScript, hrel, hfs]
  constructor
  · simp [start_all_enabled, parse_mcp_servers, parseOne, start_all_go, hen, hscript]
  · simp [start_all_enabled, parse_mcp_servers, parseOne, start_all_go, get_status,
          hen, hscript, lookupA]

/-- Witness for C2's amended claim: the concrete enabled `elasticsearch`
definition with no script on disk yields result `false` and a
`"stopped"`-with-no-error status row. -/
theorem start_all_missing_script_amended_witness :
    (start_all_enabled [] "root"
      [("elasticsearch", { enabled := true, description := "d",
                           config := [("url", "http://localhost:9200")] })]
      (fun _ => oracleNoop) { servers := [], registry := [] }).2
      = [("elasticsearch", false)] ∧
    lookupA (get_status (start_all_enabled [] "root"
      [("elasticsearch", { enabled := true, description := "d",
                           config := [("url", "http://localhost:9200")] })]
      (fun _ => oracleNoop) { servers := [], registry := [] }).1) "elasticsearch"
      = some { enabled := true, status := "stopped", port := 9200, url := "http://localhost:9200", error := none, has_script := false } := by
  have h := start_all_missing_script_amended [] "root" "elasticsearch"
    ({ enabled := true, description := "d",
       config := [("url", "http://localhost:9200")] })
    (fun _ => oracleNoop) { servers := [], registry := [] }
    "mcp_bridges/elasticsearch/bridge_server.py" rfl rfl (by decide)
  exact ⟨h.1, h.2⟩

/-- C8 amended: the spawned environment is the parent environment plus the
`PYTHONPATH` search-path addition; only for the server type `elasticsearch`
are the four hardcoded config keys `es_url`, `username`, `password`,
`api_key` forwarded (as `ES_URL`, `ES_USERNAME`, `ES_PASSWORD`,
`ES_API_KEY`, when present and non-empty) together with the fixed
`NODE_TLS_REJECT_UNAUTHORIZED`, `BRIDGE_PORT` and `BRIDGE_HOST` variables;
no other config key is forwarded, for any server type. -/
theorem build_env_forwarding_amended (root : String)
    (parentEnv : List (String × String)) (server : MCPServerInfo) :
    (server.name ≠ "elasticsearch" →
      _build_env root parentEnv server = setVar parentEnv "PYTHONPATH" root) ∧
    (∀ k, k ∉ es_env_keys →
      lookupA (_build_env root parentEnv server) k
        = lookupA (setVar parentEnv "PYTHONPATH" root) k) := by
  constructor
  · intro h
    simp [_build_env, h]
  · intro k hk
    simp only [es_env_keys, List.mem_cons, List.not_mem_nil, or_false] at hk
    push_neg at hk
    obtain ⟨hk1, hk2, hk3, hk4, hk5, hk6, hk7⟩ := hk
    by_cases h : server.name = "elasticsearch"
    · simp only [_build_env, if_pos h]
      rw [lookupA_setVar_ne _ _ _ _ hk7, lookupA_setVar_ne _ _ _ _ hk6,
          lookupA_setVar_ne _ _ _ _ hk5, lookupA_condSet_ne _ _ _ _ hk4,
          lookupA_condSet_ne _ _ _ _ hk3, lookupA_condSet_ne _ _ _ _ hk2,
          lookupA_condSet_ne _ _ _ _ hk1]
    · simp [_build_env, h]

/-- Witness for C8's amended claim: concretely, a non-`elasticsearch` server
gets exactly the parent environment plus `PYTHONPATH`, and for an
`elasticsearch` server a non-reserved key like `FOO` is looked up identically
in the built and the parent-plus-`PYTHONPATH` environments. -/
theorem build_env_forwarding_amended_witness :
    _build_env "r" [] srvFresh = setVar [] "PYTHONPATH" "r" ∧
    lookupA (_build_env "r" [] ({ srvFresh with name := "elasticsearch" })) "FOO"
      = lookupA (setVar [] "PYTHONPATH" "r") "FOO" :=
  ⟨(build_env_forwarding_amended "r" [] srvFresh).1 (by decide),
   (build_env_forwarding_amended "r" [] ({ srvFresh with name := "elasticsearch" })).2
     "FOO" (by decide)⟩

theorem monitor_run_append (fs : List String) (mo : MonitorOracle)
    (l1 l2 : List String) (st st1 : ManagerState)
    (h : monitor_run fs mo st l1 = Except.ok st1) :
    monitor_run fs mo st (l1 ++ l2) = monitor_run fs mo st1 l2 := by
  induction l1 generalizing st with
  | nil =>
    have hst : st = st1 := by
      simpa [monitor_run] using h
    rw [hst]
    rfl
  | cons n rest ih =>
    cases hstep : monitor_server_step fs mo st n with
    | ok st' =>
      have hrest : monitor_run fs mo st' rest = Except.ok st1 := by
        simpa [monitor_run, hstep] using h
      simp only [List.cons_append, monitor_run, hstep]
      exact ih st' hrest
    | error pr =>
      rw [monitor_run] at h
      simp [hstep] at h

/-- C9 amended: an error raised while handling one server inside a monitor
cycle is swallowed only at cycle granularity — the cycle returns normally
with the state reached just before the error (the `try/except` of
`_health_check_loop` wraps the whole per-cycle loop), so the servers handled
before the error keep their updates while the servers after it are not
probed in that cycle. -/
theorem monitor_cycle_error_swallowed (fs : List String) (mo : MonitorOracle)
    (names1 names2 : List String) (bad e : String) (st st1 : ManagerState)
    (h1 : monitor_run fs mo st names1 = Except.ok st1)
    (h2 : mo.raises bad = some e) :
    monitor_cycle_list fs mo st (names1 ++ bad :: names2) = st1 := by
  have hrun : monitor_run fs mo st (names1 ++ bad :: names2)
      = Except.error (e, st1) := by
    rw [monitor_run_append fs mo names1 (bad :: names2) st st1 h1]
    simp [monitor_run, monitor_server_step, h2]
  simp [monitor_cycle_list, hrun]

/-- Witness for C9's amended claim: in a concrete cycle over `b` then `a`
where handling `a` raises, the cycle ends with exactly the state produced by
handling `b` (here: `b` promoted to `"running"`), with no error escaping. -/
theorem monitor_cycle_error_swallowed_witness :
    monitor_cycle_list []
      { healthy := fun n => n == "b",
        raises := fun n => if n == "a" then some "boom" else none,
        startO := fun _ => oracleNoop }
      { servers := [("a", { srvFresh with status := "running" }),
                    ("b", { srvFresh with name := "b", status := "starting" })],
        registry := [] }
      (["b"] ++ "a" :: [])
      = { servers := [("a", { srvFresh with status := "running" }),
                      ("b", { srvFresh with name := "b", status := "running" })],
          registry := [] } := by
  have h := monitor_cycle_error_swallowed []
    ({ healthy := fun n => n == "b",
       raises := fun n => if n == "a" then some "boom" else none,
       startO := fun _ => oracleNoop })
    ["b"] [] "a" "boom"
    ({ servers := [("a", { srvFresh with status := "running" }),
                   ("b", { srvFresh with name := "b", status := "starting" })],
       registry := [] })
    ({ servers := [("a", { srvFresh with status := "running" }),
                   ("b", { srvFresh with name := "b", status := "running" })],
       registry := [] })
    rfl rfl
  exact h

end MCPManager
